import Mathlib

/-!
Verification of `convert_to_webp.py` (repository img2webp).

The script walks an input directory, selects files by extension, converts
each to WebP via the Pillow imaging library, and prints per-file log lines
plus a final tally.  We embed the script shallowly:

* filesystem facts (directory existence, directory entries, which paths
  exist on disk) are explicit parameters;
* the imaging codec is abstracted by an environment assigning to each input
  file name either success or a deterministic exception message;
* `print` calls are modelled as a list of `LogLine` constructors;
* `sys.exit` is modelled by the constructors of `CliResult` together with a
  numeric exit code in `ProcOutput`.

All definitions follow the Python source line by line; comments cite the
source lines they embed.
-/

set_option autoImplicit false

namespace Img2Webp

/-! ### String and path helpers (pathlib semantics) -/

/-- ASCII uppercasing, modelling Python `str.upper()` on the ASCII extension
strings it is applied to (line 44: `ext.upper()`). -/
def asciiUpper (s : String) : String := String.mk (s.data.map Char.toUpper)

/-- ASCII lowercasing (used only on the specification side, for the
case-insensitive extension comparison the spec describes). -/
def asciiLower (s : String) : String := String.mk (s.data.map Char.toLower)

/-- Whether `pat` is a suffix of `s` (character-wise). -/
def strEndsWith (s pat : String) : Bool :=
  decide (s.data.drop (s.data.length - pat.data.length) = pat.data)

/-- Indices of the character `.` in a list of characters. -/
def dotIdxs (cs : List Char) : List Nat :=
  (List.range cs.length).filter (fun i => cs.getD i ' ' = '.')

/-- Start index of the pathlib suffix of a file name, if any.  CPython
`PurePath.suffix` takes the LAST dot at index `i` and yields a suffix only
when `0 < i < len(name) - 1`; otherwise the suffix is empty. -/
def suffixStart (name : String) : Option Nat :=
  let cs := name.data
  match (dotIdxs cs).getLast? with
  | some i => if 0 < i ∧ i < cs.length - 1 then some i else none
  | none => none

/-- The pathlib suffix (extension, dot included) of a file name:
`Path(name).suffix`. -/
def pathSuffix (name : String) : String :=
  match suffixStart name with
  | some i => String.mk (name.data.drop i)
  | none => ""

/-- `Path(name).with_suffix(".webp").name` (line 60): replace the pathlib
suffix by `.webp`, appending it when the name has no suffix. -/
def withSuffixWebp (name : String) : String :=
  match suffixStart name with
  | some i => String.mk (name.data.take i) ++ ".webp"
  | none => name ++ ".webp"

/-- Full path of an input file inside the input directory (directories are
modelled as already-normalised path strings; `Path` equality on such paths
is string equality). -/
def inPathOf (inputDir name : String) : String := inputDir ++ "/" ++ name

/-- Full path of the computed output file (line 60):
`output_path / image_file.with_suffix(".webp").name`. -/
def outPathOf (outputDir name : String) : String :=
  outputDir ++ "/" ++ withSuffixWebp name

/-! ### Candidate-file enumeration (lines 13, 41-44) -/

/-- Line 13: `SUPPORTED_FORMATS`.  The Python value is a `set` literal whose
iteration order is unspecified; we fix the literal's order, and no claim
below depends on enumeration order. -/
def SUPPORTED_FORMATS : List String :=
  [".jpg", ".jpeg", ".png", ".bmp", ".gif", ".tiff", ".tif", ".webp"]

/-- Whether the glob pattern `*<pat>` matches a directory entry.  For a
pattern that is `*` followed by a literal, fnmatch (used by `pathlib.glob`)
matches exactly the names ending in that literal, case-sensitively. -/
def globStarMatches (pat name : String) : Bool := strEndsWith name pat

/-- Lines 41-44: for each supported extension, extend the list with the
entries matching `*<ext>` and then the entries matching `*<EXT>`. -/
def imageFiles (entries : List String) : List String :=
  SUPPORTED_FORMATS.foldl
    (fun acc ext =>
      (acc ++ entries.filter (fun n => globStarMatches ext n))
        ++ entries.filter (fun n => globStarMatches (asciiUpper ext) n))
    []

/-- Specification-side candidate predicate, written from the spec's words:
"a discovered input file path matched against a fixed set of recognized
extensions (case-insensitive)".  Used only to compare the spec with the
code's enumeration. -/
def specIsCandidate (name : String) : Bool :=
  SUPPORTED_FORMATS.any (fun e => decide (e = asciiLower (pathSuffix name)))

/-! ### Per-file processing (lines 54-89) -/

/-- Per-file result, as the spec's `ConversionOutcome`.  The code does not
reify outcomes; each corresponds to one branch of the loop body
(lines 63, 69, 74-85, 87-89). -/
inductive Outcome where
  | converted
  | skippedAlreadyTarget
  | skippedExists
  | error (msg : String)
deriving DecidableEq, Repr

/-- The imaging codec, abstracted: `convResult name = none` means
`Image.open` + `save` succeed for that input file; `some msg` means the
`try` block raises an exception with message `msg`.  The codec is
deterministic in the file name (the file's bytes never change during or
between runs in the scenarios modelled). -/
structure Env where
  convResult : String → Option String

/-- Loop body, lines 58-89.  `fs` is the set (as a list) of paths existing
on disk; a successful conversion writes the output path (line 80/82).
`output_file.exists()` (line 69) is membership in `fs`. -/
def processFile (env : Env) (inputDir outputDir : String) (overwrite : Bool)
    (fs : List String) (name : String) : Outcome × List String :=
  if inPathOf inputDir name = outPathOf outputDir name then
    (Outcome.skippedAlreadyTarget, fs)
  else if outPathOf outputDir name ∈ fs ∧ overwrite = false then
    (Outcome.skippedExists, fs)
  else
    match env.convResult name with
    | none => (Outcome.converted, outPathOf outputDir name :: fs)
    | some msg => (Outcome.error msg, fs)

/-- The `for image_file in image_files` loop (line 58), threading the disk
state and recording one outcome per file in order. -/
def processList (env : Env) (inputDir outputDir : String) (overwrite : Bool) :
    List String → List String → List (String × Outcome) × List String
  | fs, [] => ([], fs)
  | fs, name :: rest =>
    let step := processFile env inputDir outputDir overwrite fs name
    let tail := processList env inputDir outputDir overwrite step.2 rest
    ((name, step.1) :: tail.1, tail.2)

/-- Which outcomes increment `converted_count` (line 85). -/
def isConvertedB : Outcome → Bool
  | Outcome.converted => true
  | _ => false

/-- Which outcomes increment `skipped_count` (lines 65 and 71: both skip
branches share one counter). -/
def isSkippedB : Outcome → Bool
  | Outcome.skippedAlreadyTarget => true
  | Outcome.skippedExists => true
  | _ => false

/-- Which outcomes increment `error_count` (line 89). -/
def isErrorB : Outcome → Bool
  | Outcome.error _ => true
  | _ => false

/-- Final value of `converted_count`: one increment per outcome for which
`isConvertedB` holds. -/
def countConverted : List (String × Outcome) → Nat
  | [] => 0
  | p :: os => (if isConvertedB p.2 then 1 else 0) + countConverted os

/-- Final value of `skipped_count`. -/
def countSkipped : List (String × Outcome) → Nat
  | [] => 0
  | p :: os => (if isSkippedB p.2 then 1 else 0) + countSkipped os

/-- Final value of `error_count`. -/
def countErrors : List (String × Outcome) → Nat
  | [] => 0
  | p :: os => (if isErrorB p.2 then 1 else 0) + countErrors os

/-! ### The whole run of `convert_to_webp` (lines 15-95) -/

/-- One `print` call, reduced to its constructor and data.  Each
constructor cites the source line it models. -/
inductive LogLine where
  /-- Line 29: input folder does not exist. -/
  | errMissing (dir : String)
  /-- Line 33: input path is not a directory. -/
  | errNotDir (dir : String)
  /-- Line 38: `Output folder: ...`. -/
  | outputFolder (dir : String)
  /-- Line 47: `No image files found in ...`. -/
  | noImages (dir : String)
  /-- Line 50: `Found N image(s) to convert`. -/
  | foundCount (n : Nat)
  /-- Line 51: `Output quality: q`. -/
  | qualityLine (q : Nat)
  /-- Lines 52 and 91: the dash separator. -/
  | separator
  /-- Line 64: `Skipping: ... (already .webp)`. -/
  | skipSelfLine (name : String)
  /-- Line 70: `Skipping: ... (output already exists)`. -/
  | skipExistsLine (name : String)
  /-- Line 84: `Converted: ... -> ...`. -/
  | convertedLine (name outName : String)
  /-- Line 88: `Error converting ...`. -/
  | errorLine (name msg : String)
  /-- Lines 92-95: the final tally block, one constructor for the four
  prints since they always appear together. -/
  | summary (converted skipped errors : Nat)
deriving DecidableEq, Repr

/-- The log line the loop body prints for a file, determined by its
outcome (lines 64, 70, 84, 88). -/
def fileLine (p : String × Outcome) : LogLine :=
  match p.2 with
  | Outcome.skippedAlreadyTarget => LogLine.skipSelfLine p.1
  | Outcome.skippedExists => LogLine.skipExistsLine p.1
  | Outcome.converted => LogLine.convertedLine p.1 (withSuffixWebp p.1)
  | Outcome.error msg => LogLine.errorLine p.1 msg

/-- Whether a log line is the final tally block. -/
def isSummaryLine : LogLine → Bool
  | LogLine.summary _ _ _ => true
  | _ => false

/-- Observable result of one call to `convert_to_webp`. -/
structure RunResult where
  /-- Whether line 37 (`output_path.mkdir(parents=True, exist_ok=True)`)
  was reached, i.e. whether the output directory was created/ensured. -/
  ensuredOutputDir : Bool
  /-- One `(file name, outcome)` pair per processed candidate, in order. -/
  outcomes : List (String × Outcome)
  /-- Paths existing on disk when the call returns. -/
  finalFs : List String
  /-- The printed lines, in order. -/
  lines : List LogLine
deriving DecidableEq, Repr

/-- Lines 15-95, `convert_to_webp(input_folder, output_folder, quality,
overwrite)`.  `inputExists` and `inputIsDir` model the two `Path` checks
of lines 28 and 32; `entries` is the input directory's listing (file
names); `fs0` the set of paths existing on disk at entry. -/
def convert_to_webp (env : Env) (inputExists inputIsDir : Bool)
    (entries : List String) (inputDir outputDir : String) (quality : Nat)
    (overwrite : Bool) (fs0 : List String) : RunResult :=
  match inputExists, inputIsDir with
  | false, _ =>
    ⟨false, [], fs0, [LogLine.errMissing inputDir]⟩
  | true, false =>
    ⟨false, [], fs0, [LogLine.errNotDir inputDir]⟩
  | true, true =>
    if (imageFiles entries).isEmpty then
      ⟨true, [], fs0, [LogLine.outputFolder outputDir, LogLine.noImages inputDir]⟩
    else
      ⟨true,
        (processList env inputDir outputDir overwrite fs0 (imageFiles entries)).1,
        (processList env inputDir outputDir overwrite fs0 (imageFiles entries)).2,
        ([LogLine.outputFolder outputDir,
            LogLine.foundCount (imageFiles entries).length,
            LogLine.qualityLine quality, LogLine.separator]
          ++ ((processList env inputDir outputDir overwrite fs0
                (imageFiles entries)).1).map fileLine
          ++ [LogLine.separator])
          ++ [LogLine.summary
                (countConverted (processList env inputDir outputDir overwrite
                  fs0 (imageFiles entries)).1)
                (countSkipped (processList env inputDir outputDir overwrite
                  fs0 (imageFiles entries)).1)
                (countErrors (processList env inputDir outputDir overwrite
                  fs0 (imageFiles entries)).1)]⟩

/-! ### The CLI entry point `main` (lines 97-123) -/

/-- What `main` does after looking at `sys.argv`: print usage and
`sys.exit(1)` (line 106), print the quality error and `sys.exit(1)`
(line 121), or call `convert_to_webp` with the parsed arguments. -/
inductive CliResult where
  | usageExit
  | qualityExit
  | run (inputDir outputDir : String) (quality : Nat) (overwrite : Bool)
deriving DecidableEq, Repr

/-- Python `str.isdigit()` restricted to ASCII strings: nonempty and all
characters are decimal digits.  (Python also accepts some non-ASCII digit
characters; no claim involves such arguments.) -/
def pyIsDigit (s : String) : Bool :=
  decide (s.data ≠ []) && s.data.all Char.isDigit

/-- Python `int(s)` on an ASCII digit string. -/
def strToNat (s : String) : Nat :=
  s.data.foldl (fun n c => n * 10 + (c.toNat - 48)) 0

/-- Lines 114-121: the loop over `sys.argv[3:]`, carrying the current
`quality` and `overwrite`.  `none` models `sys.exit(1)` on an out-of-range
quality; any other argument falls through the `if`/`elif` silently. -/
def parseOpts : Nat → Bool → List String → Option (Nat × Bool)
  | q, ov, [] => some (q, ov)
  | q, ov, a :: rest =>
    if a = "--overwrite" then parseOpts q true rest
    else if pyIsDigit a then
      if strToNat a < 1 ∨ 100 < strToNat a then none
      else parseOpts (strToNat a) ov rest
    else parseOpts q ov rest

/-- Lines 97-123, `main()`.  `argv` is the full `sys.argv`, so
`argv.length < 3` is `len(sys.argv) < 3` and the directories are
`argv[1]`, `argv[2]`. -/
def cliMain (argv : List String) : CliResult :=
  if argv.length < 3 then CliResult.usageExit
  else
    match parseOpts 85 false (argv.drop 3) with
    | none => CliResult.qualityExit
    | some (q, ov) => CliResult.run (argv.getD 1 "") (argv.getD 2 "") q ov

/-- The whole process: exit code plus the `convert_to_webp` call when one
happens.  `main` never calls `sys.exit` after `convert_to_webp` returns,
so a run that reaches the conversion exits with status 0. -/
structure ProcOutput where
  exitCode : Nat
  runOutput : Option RunResult
deriving DecidableEq, Repr

/-- Process-level composition of `cliMain` and `convert_to_webp`. -/
def fullProcess (env : Env) (inputExists inputIsDir : Bool)
    (entries fs0 : List String) (argv : List String) : ProcOutput :=
  match cliMain argv with
  | CliResult.usageExit => ⟨1, none⟩
  | CliResult.qualityExit => ⟨1, none⟩
  | CliResult.run inDir outDir q ov =>
      ⟨0, some (convert_to_webp env inputExists inputIsDir entries inDir outDir q ov fs0)⟩

/-! ### The per-image conversion body (lines 76-82) -/

/-- Pillow pixel modes, as listed in the Pillow "Modes" documentation:
the standard modes `1`, `L`, `P`, `RGB`, `RGBA`, `CMYK`, `YCbCr`, `I`,
`F`, `HSV`, `LAB` and the additional modes `LA` (L with alpha), `PA`
(P with alpha), `RGBX`, `RGBa` and `La` (premultiplied alpha). -/
inductive Mode where
  | one | L | LA | La | P | PA | RGB | RGBX | RGBA | RGBa
  | CMYK | YCbCr | I | F | HSV | LAB
deriving DecidableEq, Repr

/-- The `img.mode` string of each mode. -/
def modeStr : Mode → String
  | Mode.one => "1"
  | Mode.L => "L"
  | Mode.LA => "LA"
  | Mode.La => "La"
  | Mode.P => "P"
  | Mode.PA => "PA"
  | Mode.RGB => "RGB"
  | Mode.RGBX => "RGBX"
  | Mode.RGBA => "RGBA"
  | Mode.RGBa => "RGBa"
  | Mode.CMYK => "CMYK"
  | Mode.YCbCr => "YCbCr"
  | Mode.I => "I"
  | Mode.F => "F"
  | Mode.HSV => "HSV"
  | Mode.LAB => "LAB"

/-- Line 78: `img.mode in ('RGBA', 'LA', 'P')`. -/
def usesTransparencyBranch (m : Mode) : Bool :=
  modeStr m = "RGBA" || modeStr m = "LA" || modeStr m = "P"

/-- The keyword arguments of one `img.save(..., 'WEBP', ...)` call. -/
structure SaveParams where
  quality : Nat
  /-- The `method` keyword when passed; `method=6` is the WebP codec's
  highest-effort compression setting (Pillow accepts 0-6). -/
  method : Option Nat
deriving DecidableEq, Repr

/-- Lines 76-82: the branch on `img.mode` choosing the save parameters.
Line 80 passes `quality` and `method=6`; line 82 passes only `quality`. -/
def convertImage (m : Mode) (quality : Nat) : SaveParams :=
  if usesTransparencyBranch m then ⟨quality, some 6⟩ else ⟨quality, none⟩

/-- Specification-side predicate: whether a Pillow mode carries an alpha
channel.  Per the Pillow mode documentation these are `RGBA`, `LA`
(L with alpha), `PA` (P with alpha), and the premultiplied variants
`RGBa` and `La`. -/
def modeHasAlpha : Mode → Bool
  | Mode.RGBA => true
  | Mode.LA => true
  | Mode.PA => true
  | Mode.RGBa => true
  | Mode.La => true
  | _ => false

/-- Specification-side predicate: whether a Pillow mode is
palette-indexed (`P`, and `PA` = palette with alpha). -/
def modeIsPalette : Mode → Bool
  | Mode.P => true
  | Mode.PA => true
  | _ => false

/-- Specification-side branch predicate, written from the spec's words:
"if its pixel format carries an alpha channel or is palette-indexed". -/
def spec_transparencyBranch (m : Mode) : Bool :=
  modeHasAlpha m || modeIsPalette m

/-- A codec environment in which every conversion succeeds. -/
def envAllOk : Env := ⟨fun _ => none⟩

/-- A codec environment in which every conversion raises an exception with
message `boom` (e.g. every input file is corrupt). -/
def envFail : Env := ⟨fun _ => some "boom"⟩

/-! ### Supporting lemmas -/

/-- Each outcome is counted by exactly one of the three counters, so the
counters partition any outcome list. -/
theorem counts_partition (os : List (String × Outcome)) :
    countConverted os + countSkipped os + countErrors os = os.length := by
  induction os with
  | nil => rfl
  | cons p os ih =>
    rw [countConverted, countSkipped, countErrors, List.length_cons]
    cases p.2 <;> simp [isConvertedB, isSkippedB, isErrorB] <;> omega

/-- The loop records exactly one outcome per candidate file. -/
theorem processList_fst_length (env : Env) (inputDir outputDir : String)
    (ov : Bool) :
    ∀ (files fs : List String),
      ((processList env inputDir outputDir ov fs files).1).length
        = files.length := by
  intro files
  induction files with
  | nil => intro fs; rfl
  | cons name rest ih => intro fs; simp [processList, ih]

/-- Processing one file never removes a path from the disk state. -/
theorem processFile_fs_mono (env : Env) (inputDir outputDir : String)
    (ov : Bool) (fs : List String) (name x : String) (hx : x ∈ fs) :
    x ∈ (processFile env inputDir outputDir ov fs name).2 := by
  unfold processFile
  split
  · exact hx
  · split
    · exact hx
    · split
      · exact List.mem_cons_of_mem _ hx
      · exact hx

/-- Processing a list of files never removes a path from the disk state. -/
theorem processList_fs_mono (env : Env) (inputDir outputDir : String)
    (ov : Bool) :
    ∀ (files fs : List String) (x : String), x ∈ fs →
      x ∈ (processList env inputDir outputDir ov fs files).2 := by
  intro files
  induction files with
  | nil => intro fs x hx; exact hx
  | cons name rest ih =>
    intro fs x hx
    exact ih _ x (processFile_fs_mono env inputDir outputDir ov fs name x hx)

/-- Membership in the fold of lines 41-44, generalised over the extension
list and the accumulator. -/
theorem imageFiles_foldl_mem (entries : List String) :
    ∀ (exts acc : List String) (x : String),
      (x ∈ exts.foldl
          (fun acc ext =>
            (acc ++ entries.filter (fun n => globStarMatches ext n))
              ++ entries.filter (fun n => globStarMatches (asciiUpper ext) n))
          acc)
        ↔ x ∈ acc
          ∨ ∃ ext ∈ exts, x ∈ entries
              ∧ (globStarMatches ext x = true
                  ∨ globStarMatches (asciiUpper ext) x = true) := by
  intro exts
  induction exts with
  | nil => intro acc x; simp
  | cons e rest ih =>
    intro acc x
    rw [List.foldl_cons, ih]
    simp only [List.mem_append, List.mem_filter, List.mem_cons]
    constructor
    · rintro (((hacc | hlo) | hup) | ⟨ext, hext, hx, hm⟩)
      · exact Or.inl hacc
      · exact Or.inr ⟨e, Or.inl rfl, hlo.1, Or.inl hlo.2⟩
      · exact Or.inr ⟨e, Or.inl rfl, hup.1, Or.inr hup.2⟩
      · exact Or.inr ⟨ext, Or.inr hext, hx, hm⟩
    · rintro (hacc | ⟨ext, he | hr, hx, hm | hm⟩)
      · exact Or.inl (Or.inl (Or.inl hacc))
      · exact Or.inl (Or.inl (Or.inr ⟨hx, he ▸ hm⟩))
      · exact Or.inl (Or.inr ⟨hx, he ▸ hm⟩)
      · exact Or.inr ⟨ext, hr, hx, Or.inl hm⟩
      · exact Or.inr ⟨ext, hr, hx, Or.inr hm⟩

/-- A name is enumerated iff it is a directory entry ending in a supported
extension written fully lowercase or fully uppercase. -/
theorem imageFiles_mem (entries : List String) (x : String) :
    x ∈ imageFiles entries
      ↔ x ∈ entries
          ∧ ∃ ext ∈ SUPPORTED_FORMATS,
              (globStarMatches ext x = true
                ∨ globStarMatches (asciiUpper ext) x = true) := by
  rw [imageFiles, imageFiles_foldl_mem entries SUPPORTED_FORMATS [] x]
  constructor
  · rintro (h | ⟨ext, hext, hx, hm⟩)
    · cases h
    · exact ⟨hx, ext, hext, hm⟩
  · rintro ⟨hx, ext, hext, hm⟩
    exact Or.inr ⟨ext, hext, hx, hm⟩

/-- After a run, every candidate's output path exists on disk, unless the
candidate is its own target or the codec fails on it deterministically. -/
theorem processList_post (env : Env) (inputDir outputDir : String) (ov : Bool) :
    ∀ (files fs : List String) (f : String), f ∈ files →
      outPathOf outputDir f ∈ (processList env inputDir outputDir ov fs files).2
        ∨ inPathOf inputDir f = outPathOf outputDir f
        ∨ ∃ m, env.convResult f = some m := by
  intro files
  induction files with
  | nil => intro fs f hf; cases hf
  | cons g rest ih =>
    intro fs f hf
    rcases List.mem_cons.mp hf with rfl | hf'
    · by_cases h1 : inPathOf inputDir f = outPathOf outputDir f
      · exact Or.inr (Or.inl h1)
      by_cases h2 : outPathOf outputDir f ∈ fs ∧ ov = false
      · left
        simp only [processList]
        exact processList_fs_mono env inputDir outputDir ov rest _ _
          (processFile_fs_mono env inputDir outputDir ov fs f _ h2.1)
      cases hc : env.convResult f with
      | some m => exact Or.inr (Or.inr ⟨m, rfl⟩)
      | none =>
        left
        simp only [processList]
        have hstep : (processFile env inputDir outputDir ov fs f).2
            = outPathOf outputDir f :: fs := by
          unfold processFile
          rw [if_neg h1, if_neg h2, hc]
        refine processList_fs_mono env inputDir outputDir ov rest _ _ ?_
        rw [hstep]
        exact List.mem_cons_self _ _
    · simp only [processList]
      exact ih _ f hf'

/-- If every file of the list is already covered (output on disk, its own
target, or a deterministic codec failure), a run with `overwrite = false`
writes nothing: the disk state is unchanged. -/
theorem processList_stable (env : Env) (inputDir outputDir : String) :
    ∀ (files fs : List String),
      (∀ f ∈ files,
          outPathOf outputDir f ∈ fs
            ∨ inPathOf inputDir f = outPathOf outputDir f
            ∨ ∃ m, env.convResult f = some m) →
      (processList env inputDir outputDir false fs files).2 = fs := by
  intro files
  induction files with
  | nil => intro fs _; rfl
  | cons g rest ih =>
    intro fs h
    have hstep : (processFile env inputDir outputDir false fs g).2 = fs := by
      unfold processFile
      by_cases h1 : inPathOf inputDir g = outPathOf outputDir g
      · rw [if_pos h1]
      rw [if_neg h1]
      by_cases h2 : outPathOf outputDir g ∈ fs ∧ (false : Bool) = false
      · rw [if_pos h2]
      rw [if_neg h2]
      rcases h g (List.mem_cons_self _ _) with hmem | h1' | ⟨m, hm⟩
      · exact absurd ⟨hmem, rfl⟩ h2
      · exact absurd h1' h1
      · rw [hm]
    simp only [processList]
    rw [hstep]
    exact ih fs (fun f hf => h f (List.mem_cons_of_mem _ hf))

/-- In a run with `overwrite = false`, a recorded outcome whose output path
was already on disk at the start and is not the file's own path is
`skippedExists`. -/
theorem processList_skipExists (env : Env) (inputDir outputDir : String) :
    ∀ (files fs : List String) (f : String) (o : Outcome),
      (f, o) ∈ (processList env inputDir outputDir false fs files).1 →
      outPathOf outputDir f ∈ fs →
      inPathOf inputDir f ≠ outPathOf outputDir f →
      o = Outcome.skippedExists := by
  intro files
  induction files with
  | nil => intro fs f o hmem _ _; cases hmem
  | cons g rest ih =>
    intro fs f o hmem hex hne
    simp only [processList, List.mem_cons] at hmem
    rcases hmem with heq | hmem'
    · injection heq with hf ho
      subst hf
      subst ho
      unfold processFile
      rw [if_neg hne, if_pos ⟨hex, rfl⟩]
    · exact ih _ f o hmem'
        (processFile_fs_mono env inputDir outputDir false fs g _ hex) hne

/-! ### Claim C2 -/

/-- Claim C2: for every run that processes a candidate-file list (the input
directory exists and is a directory), each candidate file is assigned
exactly one outcome, and the final counts satisfy
`converted + skipped + errors = number of candidate files discovered`. -/
theorem C2_counts_sum (env : Env) (entries : List String)
    (inputDir outputDir : String) (quality : Nat) (ov : Bool)
    (fs0 : List String) :
    countConverted (convert_to_webp env true true entries inputDir outputDir
          quality ov fs0).outcomes
        + countSkipped (convert_to_webp env true true entries inputDir
          outputDir quality ov fs0).outcomes
        + countErrors (convert_to_webp env true true entries inputDir
          outputDir quality ov fs0).outcomes
        = (imageFiles entries).length
      ∧ (convert_to_webp env true true entries inputDir outputDir quality ov
          fs0).outcomes.length
        = (imageFiles entries).length := by
  simp only [convert_to_webp]
  by_cases h : (imageFiles entries).isEmpty = true
  · rw [if_pos h]
    rw [List.isEmpty_iff] at h
    simp [countConverted, countSkipped, countErrors, h]
  · rw [if_neg h]
    dsimp only
    refine ⟨?_, ?_⟩
    · rw [counts_partition]
      exact processList_fst_length env inputDir outputDir ov
        (imageFiles entries) fs0
    · exact processList_fst_length env inputDir outputDir ov
        (imageFiles entries) fs0

/-! ### Claim C3 -/

/-- Claim C3, counterexample: the file name `a.Jpg` has the recognized
extension `.jpg` under case-insensitive comparison (the spec-side
predicate holds), yet the enumeration of lines 41-44 does not list it,
because the code only globs fully-lowercase and fully-uppercase
patterns. -/
theorem C3_counterexample :
    specIsCandidate "a.Jpg" = true
      ∧ ¬("a.Jpg" ∈ imageFiles ["a.Jpg"]) := by decide

/-- Claim C3 (amended): a file is enumerated as a candidate iff it is a
directory entry whose name ends with a recognized extension written
either fully lowercase or fully uppercase; mixed-case extensions such as
`.Jpg` are not enumerated, and files with other extensions are not. -/
theorem C3_enumeration (entries : List String) (name : String) :
    name ∈ imageFiles entries
      ↔ name ∈ entries
          ∧ ∃ ext ∈ SUPPORTED_FORMATS,
              (globStarMatches ext name = true
                ∨ globStarMatches (asciiUpper ext) name = true) :=
  imageFiles_mem entries name

/-! ### Claim C4 -/

/-- Claim C4, counterexample: with an existing input directory containing
no candidate files (one entry `notes.txt`), the run prints the
`No image files found` line and returns early: no trailing summary line
is emitted, although the claim requires one in the zero-candidate
case. -/
theorem C4_counterexample :
    (convert_to_webp envAllOk true true ["notes.txt"] "in" "out" 85 false
        []).lines.any isSummaryLine = false
      ∧ (convert_to_webp envAllOk true true ["notes.txt"] "in" "out" 85 false
          []).lines
        = [LogLine.outputFolder "out", LogLine.noImages "in"] := by decide

/-- Claim C4 (amended): when the input directory exists and at least one
candidate file is discovered, the run's last printed line is the summary
with the three totals; with zero candidates the run instead prints a
`No image files found` line and no summary. -/
theorem C4_trailing_summary (env : Env) (entries : List String)
    (inputDir outputDir : String) (quality : Nat) (ov : Bool)
    (fs0 : List String) (h : (imageFiles entries).isEmpty = false) :
    (convert_to_webp env true true entries inputDir outputDir quality ov
        fs0).lines.getLast?
      = some (LogLine.summary
          (countConverted (convert_to_webp env true true entries inputDir
            outputDir quality ov fs0).outcomes)
          (countSkipped (convert_to_webp env true true entries inputDir
            outputDir quality ov fs0).outcomes)
          (countErrors (convert_to_webp env true true entries inputDir
            outputDir quality ov fs0).outcomes)) := by
  have h' : ¬((imageFiles entries).isEmpty = true) := by rw [h]; decide
  simp only [convert_to_webp]
  rw [if_neg h']
  dsimp only
  rw [List.getLast?_append_of_ne_nil _ (List.cons_ne_nil _ _)]
  rfl

/-- Witness for C4 (amended) at a one-candidate directory. -/
theorem C4_witness :
    (imageFiles ["a.png"]).isEmpty = false
      ∧ (convert_to_webp envAllOk true true ["a.png"] "in" "out" 85 false
          []).lines.getLast?
        = some (LogLine.summary
            (countConverted (convert_to_webp envAllOk true true ["a.png"]
              "in" "out" 85 false []).outcomes)
            (countSkipped (convert_to_webp envAllOk true true ["a.png"]
              "in" "out" 85 false []).outcomes)
            (countErrors (convert_to_webp envAllOk true true ["a.png"]
              "in" "out" 85 false []).outcomes)) :=
  ⟨by decide,
    C4_trailing_summary envAllOk ["a.png"] "in" "out" 85 false [] (by decide)⟩

/-! ### Claim C6 -/

/-- Claim C6: a candidate whose computed output path equals its input path
is classified `skippedAlreadyTarget` — which the tally counts as skipped —
with the disk state unchanged (no write attempted), for any value of the
overwrite flag. -/
theorem C6_self_skip (env : Env) (inputDir outputDir : String) (ov : Bool)
    (fs : List String) (name : String)
    (h : inPathOf inputDir name = outPathOf outputDir name) :
    processFile env inputDir outputDir ov fs name
        = (Outcome.skippedAlreadyTarget, fs)
      ∧ isSkippedB Outcome.skippedAlreadyTarget = true := by
  refine ⟨?_, rfl⟩
  unfold processFile
  rw [if_pos h]

/-- Witness for C6: a `.webp` file converted into its own directory, with
`overwrite = true` and a codec that would fail if it were invoked. -/
theorem C6_witness :
    inPathOf "d" "a.webp" = outPathOf "d" "a.webp"
      ∧ (processFile envFail "d" "d" true ["d/a.webp"] "a.webp"
            = (Outcome.skippedAlreadyTarget, ["d/a.webp"])
          ∧ isSkippedB Outcome.skippedAlreadyTarget = true) :=
  ⟨by decide, C6_self_skip envFail "d" "d" true ["d/a.webp"] "a.webp" (by decide)⟩

/-! ### Claim C7 -/

/-- Claim C7: when the codec fails on a candidate that reaches the
conversion branch, the outcome is `error msg` — counted by the error
tally — the disk state is unchanged, and the remaining candidates are
still processed exactly as they would be from the same state. -/
theorem C7_error_isolated (env : Env) (inputDir outputDir : String)
    (ov : Bool) (fs : List String) (name msg : String) (rest : List String)
    (hc : env.convResult name = some msg)
    (h1 : inPathOf inputDir name ≠ outPathOf outputDir name)
    (h2 : ¬(outPathOf outputDir name ∈ fs ∧ ov = false)) :
    processFile env inputDir outputDir ov fs name = (Outcome.error msg, fs)
      ∧ isErrorB (Outcome.error msg) = true
      ∧ (processList env inputDir outputDir ov fs (name :: rest)).1
          = (name, Outcome.error msg)
              :: (processList env inputDir outputDir ov fs rest).1 := by
  have hpf : processFile env inputDir outputDir ov fs name
      = (Outcome.error msg, fs) := by
    unfold processFile
    rw [if_neg h1, if_neg h2, hc]
  refine ⟨hpf, rfl, ?_⟩
  simp only [processList, hpf]

/-- Witness for C7: a corrupt `a.png` followed by another candidate. -/
theorem C7_witness :
    processFile envFail "in" "out" false [] "a.png"
        = (Outcome.error "boom", [])
      ∧ isErrorB (Outcome.error "boom") = true
      ∧ (processList envFail "in" "out" false [] ["a.png", "b.png"]).1
          = ("a.png", Outcome.error "boom")
              :: (processList envFail "in" "out" false [] ["b.png"]).1 :=
  C7_error_isolated envFail "in" "out" false [] "a.png" "boom" ["b.png"]
    rfl (by decide) (by decide)

/-! ### Claim C5 -/

/-- If the optional-argument list contains a digit string whose value is
outside `[1, 100]`, the parsing loop of lines 114-121 calls
`sys.exit(1)`, whatever the state it reaches that argument with. -/
theorem parseOpts_exit (a : String) (hd : pyIsDigit a = true)
    (hr : strToNat a < 1 ∨ 100 < strToNat a) :
    ∀ (args : List String) (q : Nat) (ov : Bool), a ∈ args →
      parseOpts q ov args = none := by
  intro args
  induction args with
  | nil => intro q ov h; cases h
  | cons b rest ih =>
    intro q ov h
    rcases List.mem_cons.mp h with rfl | h'
    · have hb : a ≠ "--overwrite" := by
        intro he
        rw [he] at hd
        exact absurd hd (by decide)
      simp only [parseOpts]
      rw [if_neg hb, if_pos hd, if_pos hr]
    · by_cases hb : b = "--overwrite"
      · simp only [parseOpts]
        rw [if_pos hb]
        exact ih _ _ h'
      by_cases hbd : pyIsDigit b = true
      · simp only [parseOpts]
        rw [if_neg hb, if_pos hbd]
        by_cases hq : strToNat b < 1 ∨ 100 < strToNat b
        · rw [if_pos hq]
        · rw [if_neg hq]
          exact ih _ _ h'
      · simp only [parseOpts]
        rw [if_neg hb, if_neg hbd]
        exact ih _ _ h'

/-- Claim C5: supplying a purely numeric argument whose value is outside
`[1, 100]` (such as `0` or `101`) makes the process exit with status 1
during argument validation, before `convert_to_webp` is called, so no
file is processed. -/
theorem C5_quality_exit (env : Env) (ex isd : Bool)
    (entries fs0 argv : List String) (a : String)
    (ha : a ∈ argv.drop 3) (hd : pyIsDigit a = true)
    (hr : strToNat a < 1 ∨ 100 < strToNat a) :
    (fullProcess env ex isd entries fs0 argv).exitCode = 1
      ∧ (fullProcess env ex isd entries fs0 argv).runOutput = none := by
  have hlen : ¬(argv.length < 3) := by
    intro hl
    rw [List.drop_eq_nil_of_le (Nat.le_of_lt hl)] at ha
    cases ha
  have hparse : parseOpts 85 false (argv.drop 3) = none :=
    parseOpts_exit a hd hr _ 85 false ha
  unfold fullProcess cliMain
  rw [if_neg hlen, hparse]
  exact ⟨rfl, rfl⟩

/-- Witness for C5 at `quality = 101`. -/
theorem C5_witness :
    (fullProcess envAllOk true true [] [] ["p", "in", "out", "101"]).exitCode
        = 1
      ∧ (fullProcess envAllOk true true [] []
          ["p", "in", "out", "101"]).runOutput = none :=
  C5_quality_exit envAllOk true true [] [] ["p", "in", "out", "101"] "101"
    (by decide) (by decide) (by decide)

/-! ### Claim C1 -/

/-- Claim C1, counterexample: with the input directory missing, the
process does NOT exit with a non-zero status.  `convert_to_webp` prints
the error and returns normally (line 30 is a plain `return`), `main`
falls through, and the process exits 0.  (No file is processed and the
output directory is not created, but the claimed non-zero exit is
false.) -/
theorem C1_counterexample :
    (fullProcess envAllOk false true [] [] ["prog", "missing", "out"]).exitCode
        = 0
      ∧ (fullProcess envAllOk false true [] []
            ["prog", "missing", "out"]).runOutput
        = some ⟨false, [], [], [LogLine.errMissing "missing"]⟩ := by decide

/-- Claim C1 (amended): if the input directory is missing or is not a
directory (and the CLI accepted the arguments), the run stops after the
descriptive error line: no candidate file is processed and the output
directory is not created — but the process exits with status 0, not a
non-zero status. -/
theorem C1_fail_fast (env : Env) (ex isd : Bool)
    (entries fs0 argv : List String) (inDir outDir : String) (q : Nat)
    (ov : Bool) (hrun : cliMain argv = CliResult.run inDir outDir q ov)
    (hbad : ex = false ∨ isd = false) :
    (fullProcess env ex isd entries fs0 argv).exitCode = 0
      ∧ ∃ r, (fullProcess env ex isd entries fs0 argv).runOutput = some r
          ∧ r.outcomes = [] ∧ r.ensuredOutputDir = false := by
  unfold fullProcess
  rw [hrun]
  refine ⟨rfl, ?_⟩
  rcases hbad with rfl | hisd
  · exact ⟨_, rfl, rfl, rfl⟩
  · cases ex
    · exact ⟨_, rfl, rfl, rfl⟩
    · subst hisd
      exact ⟨_, rfl, rfl, rfl⟩

/-- Witness for C1 (amended): missing input directory. -/
theorem C1_witness :
    (fullProcess envAllOk false true [] [] ["p", "in", "out"]).exitCode = 0
      ∧ ∃ r, (fullProcess envAllOk false true [] []
              ["p", "in", "out"]).runOutput = some r
          ∧ r.outcomes = [] ∧ r.ensuredOutputDir = false :=
  C1_fail_fast envAllOk false true [] [] ["p", "in", "out"] "in" "out" 85
    false (by decide) (Or.inl rfl)

/-! ### Claim C10 -/

/-- Claim C10: an extra command-line argument that is neither
`--overwrite` nor a purely-digit string is silently ignored: the parsing
loop continues with the same quality and overwrite values and raises no
error for it. -/
theorem C10_nondigit_ignored (q : Nat) (ov : Bool) (a : String)
    (rest : List String) (hno : a ≠ "--overwrite")
    (hnd : pyIsDigit a = false) :
    parseOpts q ov (a :: rest) = parseOpts q ov rest := by
  have hnd' : ¬(pyIsDigit a = true) := by
    rw [hnd]
    decide
  simp only [parseOpts]
  rw [if_neg hno, if_neg hnd']

/-- Witness for C10 at the argument `-5` (not a Python digit string). -/
theorem C10_witness :
    parseOpts 85 false ["-5", "abc"] = parseOpts 85 false ["abc"] :=
  C10_nondigit_ignored 85 false "-5" ["abc"] (by decide) (by decide)

/-! ### Claim C8 -/

/-- Claim C8, counterexample: with output directory equal to input
directory and one candidate `a.webp` (whose path `d/a.webp` exists on
disk, being the input file itself), the second run classifies it
`skippedAlreadyTarget`, not `skippedExists`, although its output file
already exists — the self-target check of line 63 runs first. -/
theorem C8_counterexample :
    (convert_to_webp envAllOk true true ["a.webp"] "d" "d" 85 false
          ((convert_to_webp envAllOk true true ["a.webp"] "d" "d" 85 false
            ["d/a.webp"]).finalFs)).outcomes
        = [("a.webp", Outcome.skippedAlreadyTarget)]
      ∧ outPathOf "d" "a.webp"
          ∈ (convert_to_webp envAllOk true true ["a.webp"] "d" "d" 85 false
              ["d/a.webp"]).finalFs := by decide

set_option maxHeartbeats 2000000 in
/-- Claim C8 (amended): run the converter twice on the same inputs, the
second time with `overwrite = false`.  On the second run, every candidate
whose output file already exists and whose output path differs from its
own path is classified `skippedExists` (a self-target candidate is
classified `skippedAlreadyTarget` instead), and the second run writes
zero new files: the disk state it returns is exactly the one the first
run left. -/
theorem C8_second_run (env : Env) (entries : List String)
    (inputDir outputDir : String) (q1 q2 : Nat) (ov1 : Bool)
    (fs0 : List String) (f : String) (o : Outcome)
    (hmem : (f, o) ∈ (convert_to_webp env true true entries inputDir
        outputDir q2 false
        ((convert_to_webp env true true entries inputDir outputDir q1 ov1
          fs0).finalFs)).outcomes)
    (hex : outPathOf outputDir f
        ∈ (convert_to_webp env true true entries inputDir outputDir q1 ov1
            fs0).finalFs)
    (hne : inPathOf inputDir f ≠ outPathOf outputDir f) :
    o = Outcome.skippedExists
      ∧ (convert_to_webp env true true entries inputDir outputDir q2 false
          ((convert_to_webp env true true entries inputDir outputDir q1 ov1
            fs0).finalFs)).finalFs
        = (convert_to_webp env true true entries inputDir outputDir q1 ov1
            fs0).finalFs := by
  by_cases h : (imageFiles entries).isEmpty = true
  · simp only [convert_to_webp, h, if_true] at hmem
    cases hmem
  · rw [Bool.not_eq_true] at h
    simp only [convert_to_webp, h, Bool.false_eq_true, if_false]
      at hmem hex ⊢
    constructor
    · exact processList_skipExists env inputDir outputDir
        (imageFiles entries) _ f o hmem hex hne
    · exact processList_stable env inputDir outputDir (imageFiles entries) _
        (fun g hg =>
          processList_post env inputDir outputDir ov1 (imageFiles entries)
            fs0 g hg)

/-- Witness for C8 (amended): `a.png` converted on the first run, skipped
on the second. -/
theorem C8_witness :
    ("a.png", Outcome.skippedExists)
        ∈ (convert_to_webp envAllOk true true ["a.png"] "in" "out" 85 false
            ((convert_to_webp envAllOk true true ["a.png"] "in" "out" 85
              false []).finalFs)).outcomes
      ∧ (Outcome.skippedExists = Outcome.skippedExists
          ∧ (convert_to_webp envAllOk true true ["a.png"] "in" "out" 85 false
              ((convert_to_webp envAllOk true true ["a.png"] "in" "out" 85
                false []).finalFs)).finalFs
            = (convert_to_webp envAllOk true true ["a.png"] "in" "out" 85
                false []).finalFs) :=
  ⟨by decide,
    C8_second_run envAllOk ["a.png"] "in" "out" 85 85 false [] "a.png"
      Outcome.skippedExists (by decide) (by decide) (by decide)⟩

/-! ### Claim C9 -/

/-- Claim C9, counterexample: the Pillow mode `PA` is palette-indexed and
carries an alpha channel, so the claim requires the
transparency-preserving, highest-effort save (`quality`, `method=6`);
but `"PA"` is not in the tuple tested on line 78, so the code takes the
plain branch and saves with `quality` only. -/
theorem C9_counterexample :
    spec_transparencyBranch Mode.PA = true
      ∧ convertImage Mode.PA 85 = ⟨85, none⟩ := by decide

/-- Claim C9 (amended): an image whose mode is exactly `RGBA`, `LA` or `P`
is encoded at the requested quality with `method=6` (the codec's
highest-effort setting); an image in any other mode — including the
alpha-carrying modes `PA`, `RGBa` and `La` — is encoded at the same
quality with no `method` argument. -/
theorem C9_mode_branch (m : Mode) (q : Nat) :
    (convertImage m q).quality = q
      ∧ ((convertImage m q).method = some 6
          ↔ (m = Mode.RGBA ∨ m = Mode.LA ∨ m = Mode.P)) := by
  cases m <;> simp [convertImage, usesTransparencyBranch, modeStr]

end Img2Webp
